import Mathlib

/-!
Verification of the webml compiler's middle tier and runtime memory manager.

The development embeds, as executable Lean definitions:
* the surface→core desugaring pass (`src/src/ast/desugar.rs`),
* the core→HIR lowering pass (`src/src/hir/ast2hir.rs`),
* the runtime page/bump allocator (`src/webml-rt/src/lib.rs`),
and proves properties of those definitions.

The compiler passes carry mutable state in Rust (`&mut self`): the fresh-name
counter.  The embedding threads that counter explicitly.  Rust `panic!` /
`expect` paths are embedded as `Option.none`.  Because `conv_statement`
re-invokes itself on its own argument in the `Statement::Fun` arm, the
embedding of both passes is fuel-indexed: `none` also results when the fuel
budget is exhausted, and a terminating run of the Rust code corresponds to a
result `some _` for every sufficiently large fuel.
-/

namespace WebML

/-- Symbol: a human-readable name paired with a numeric identity
(`prim::Symbol(String, u64)` as used throughout `desugar.rs` and
`ast2hir.rs`). -/
structure Symbol where
  name : String
  id : Nat
deriving DecidableEq

/-- Literal constant values (`prim::Literal`; `desugar.rs` handles constant
patterns as `i64`, so literals are modelled as integers). -/
abbrev Literal := Int

/-- Surface/core type representation, `ast::Type` exactly as consumed by
`conv_ty` in `ast2hir.rs` (variants `Int`, `Real`, `Tuple`, `Fun`,
`Datatype`, `Variable`). -/
inductive AType where
  | Variable (n : Nat)
  | Int
  | Real
  | Fun (arg : AType) (ret : AType)
  | Tuple (tys : List AType)
  | Datatype (name : Symbol)

/-- Pattern tree `ast::Pattern<Ty>` as used by `desugar.rs` and
`ast2hir.rs`: literal constant, constructor (optional single typed
sub-binder), tuple of typed binders, variable, wildcard. -/
inductive Pat (T : Type) where
  | Constant (value : WebML.Literal) (ty : T)
  | Constructor (ty : T) (arg : Option (T × WebML.Symbol)) (name : WebML.Symbol)
  | Tuple (tuple : List (T × WebML.Symbol)) (ty : T)
  | Variable (name : WebML.Symbol) (ty : T)
  | Wildcard (ty : T)

mutual
/-- Core statements `ast::Statement<Ty>` after desugaring (the canonical-core
grammar consumed by `ast2hir.rs`).  The `Fun` variant is part of the type and
is matched by `conv_statement` (`s @ ast::Statement::Fun { .. }`). -/
inductive CStatement (T : Type) where
  | Datatype (name : WebML.Symbol) (constructors : List (WebML.Symbol × Option AType)) : CStatement T
  | Fun (name : WebML.Symbol) (params : List (Pat T)) (expr : CExpr T) : CStatement T
  | Val (isRec : Bool) (pattern : Pat T) (expr : CExpr T) : CStatement T

/-- Core expressions `ast::Expr<Ty>` (canonical core: the derived `If` form
is absent; `conv_expr`'s `E::D(d) => match d {}` arm shows the derived
component is uninhabited after desugaring). -/
inductive CExpr (T : Type) where
  | Binds (ty : T) (binds : List (CStatement T)) (ret : CExpr T) : CExpr T
  | BinOp (op : WebML.Symbol) (ty : T) (l : CExpr T) (r : CExpr T) : CExpr T
  | Fn (ty : T) (param : WebML.Symbol) (body : CExpr T) : CExpr T
  | App (ty : T) (fn : CExpr T) (arg : CExpr T) : CExpr T
  | Case (ty : T) (cond : CExpr T) (clauses : List (Pat T × CExpr T)) : CExpr T
  | Tuple (ty : T) (tuple : List (CExpr T)) : CExpr T
  | Constructor (ty : T) (arg : Option (CExpr T)) (name : WebML.Symbol) : CExpr T
  | Symbol (ty : T) (name : WebML.Symbol) : CExpr T
  | Literal (ty : T) (value : WebML.Literal) : CExpr T
end

mutual
/-- Surface statements (`ast::Statement<()>` before desugaring, as consumed
by `transform_statement` in `desugar.rs`): datatype declarations, value
bindings, and function declarations with a parameter pattern list. -/
inductive UStatement where
  | Datatype (name : WebML.Symbol) (constructors : List (WebML.Symbol × Option AType)) : UStatement
  | Val (isRec : Bool) (pattern : Pat Unit) (expr : UExpr) : UStatement
  | Fun (name : WebML.Symbol) (params : List (Pat Unit)) (expr : UExpr) : UStatement

/-- Surface expressions before desugaring.  `DIf` models
`Expr::D(DerivedExpr::If { .. })`, the derived conditional eliminated by
`transform_if`. -/
inductive UExpr where
  | Binds (ty : Unit) (binds : List UStatement) (ret : UExpr) : UExpr
  | BinOp (op : WebML.Symbol) (ty : Unit) (l : UExpr) (r : UExpr) : UExpr
  | Fn (ty : Unit) (param : WebML.Symbol) (body : UExpr) : UExpr
  | App (ty : Unit) (fn : UExpr) (arg : UExpr) : UExpr
  | Case (ty : Unit) (cond : UExpr) (clauses : List (Pat Unit × UExpr)) : UExpr
  | Tuple (ty : Unit) (tuple : List UExpr) : UExpr
  | Constructor (ty : Unit) (arg : Option UExpr) (name : WebML.Symbol) : UExpr
  | Symbol (ty : Unit) (name : WebML.Symbol) : UExpr
  | Literal (ty : Unit) (value : WebML.Literal) : UExpr
  | DIf (ty : Unit) (cond : UExpr) (then_ : UExpr) (else_ : UExpr) : UExpr
end

/-- HIR types `hir::HTy` as produced by `conv_ty`: `Int`, `Real`, `Tuple`,
binary `Fun` (currying retained at the type level), and `Datatype` as the
complete ordered discriminant list. -/
inductive HTy where
  | Int
  | Real
  | Tuple (tys : List HTy)
  | Fun (arg : HTy) (ret : HTy)
  | Datatype (descriminants : List (Nat × Option HTy))

/-- HIR patterns `hir::Pattern` as produced by `conv_pat`. -/
inductive HPattern where
  | Constant (value : Literal) (ty : HTy)
  | Constructor (ty : HTy) (arg : Option (HTy × Symbol)) (descriminant : Nat)
  | Tuple (tuple : List Symbol) (tys : List HTy)
  | Var (name : Symbol) (ty : HTy)

mutual
/-- HIR value binding `hir::Val` (type, recursiveness flag, name, expression)
and HIR expressions `hir::Expr` as produced by `conv_expr`.  `App` models the
single-argument application built by `Expr::app1` (declared outside `src/`;
modelled from the spec: each application node lowers exactly one argument).
`Fun` carries the parameter as a (type, symbol) pair, the body type, and the
capture list that `conv_expr` always leaves empty. -/
inductive HVal where
  | mk (ty : HTy) (isRec : Bool) (name : WebML.Symbol) (expr : HExpr) : HVal

inductive HExpr where
  | Binds (ty : HTy) (binds : List HVal) (ret : HExpr) : HExpr
  | BinOp (ty : HTy) (name : WebML.Symbol) (l : HExpr) (r : HExpr) : HExpr
  | Fun (param : HTy × WebML.Symbol) (bodyTy : HTy) (body : HExpr)
      (captures : List (HTy × WebML.Symbol)) : HExpr
  | App (ty : HTy) (fn : HExpr) (arg : HExpr) : HExpr
  | Case (ty : HTy) (expr : HExpr) (arms : List (HPattern × HExpr)) : HExpr
  | Tuple (tys : List HTy) (tuple : List HExpr) : HExpr
  | Proj (ty : HTy) (index : Nat) (tuple : HExpr) : HExpr
  | Constructor (ty : HTy) (arg : Option HExpr) (descriminant : Nat) : HExpr
  | Sym (ty : HTy) (name : WebML.Symbol) : HExpr
  | Lit (ty : HTy) (value : WebML.Literal) : HExpr
end

/-- Pattern `binds()` (`ast/mod.rs`): the ordered list of (name, type) pairs
a pattern introduces.  The `Constant`, `Wildcard`, `Variable` and `Tuple`
arms follow `Pattern::binds` in `src/src/ast/mod.rs`; the `Constructor` arm
is modelled from the spec: the constructor pattern carries an optional single
sub-binder, and `binds()` yields exactly its introduced binders. -/
def Pat.binds {T : Type} : Pat T → List (Symbol × T)
  | .Constant _ _ => []
  | .Wildcard _ => []
  | .Variable name ty => [(name, ty)]
  | .Constructor _ arg _ =>
      match arg with
      | none => []
      | some (ty, sym) => [(sym, ty)]
  | .Tuple tuple _ => tuple.map (fun p => (p.2, p.1))

/-- Symbol::new (declared in the crate's `prim` module, outside `src/`).
Modelled from the spec: it builds a symbol from a bare name, used by
`transform_if` for the `true`/`false` constructor names and by `conv_pat`
for the wildcard name. -/
def Symbol.new (s : String) : Symbol := ⟨s, 0⟩

/-- Name tag of the symbols synthesized by `Desugar::gensym`
(`Symbol("#arg".into(), id)`). -/
def argTag : String := "#arg"

/-- Name tag of the symbols synthesized by `AST2HIR::gensym`
(`Symbol("#g".into(), id)`). -/
def gTag : String := "#g"

/-- Desugar::transform_pattern (`desugar.rs`): dispatches to the per-shape
helpers `transform_pat_constant` … `transform_pat_wildcard`, each of which
rebuilds the pattern unchanged. -/
def transformPattern : Pat Unit → Pat Unit
  | .Constant value ty => .Constant value ty
  | .Constructor ty arg name => .Constructor ty arg name
  | .Tuple ty_tuple ty => .Tuple ty_tuple ty
  | .Variable name ty => .Variable name ty
  | .Wildcard ty => .Wildcard ty

/-- Fold of `transform_fun` over the reversed parameter list
(`params.into_iter().rev().fold(body, …)` in `desugar.rs`): each step draws a
fresh `#arg` symbol from the identity counter (modelled from the spec: the
shared counter's `next()` yields the current value and advances) and wraps
the accumulated body in a single-argument function whose body is a one-clause
match of that symbol against the parameter pattern. -/
def foldFunParams (params : List (Pat Unit)) (n : Nat) (body : CExpr Unit) :
    Nat × CExpr Unit :=
  params.reverse.foldl
    (fun acc param =>
      let paramSym : Symbol := ⟨argTag, acc.1⟩
      (acc.1 + 1,
        .Fn () paramSym (.Case () (.Symbol () paramSym) [(param, acc.2)])))
    (n, body)

mutual
/-- Desugar::transform_statement (`desugar.rs`), fuel-indexed; the second
argument is the fresh-name counter.  `Datatype` passes through unchanged
(`transform_datatype`), `Val` rewrites pattern and expression
(`transform_val`), `Fun` is `transform_fun`: the desugared body is folded
into nested one-argument functions and bound, always recursively, to the
original name. -/
def transformStatementF : Nat → Nat → UStatement → Option (Nat × CStatement Unit)
  | 0, _, _ => none
  | _ + 1, n, .Datatype name constructors => some (n, .Datatype name constructors)
  | f + 1, n, .Val r pattern expr => do
      let p := transformPattern pattern
      let (n1, e) ← transformExprF f n expr
      some (n1, .Val r p e)
  | f + 1, n, .Fun name params expr => do
      let (n1, body) ← transformExprF f n expr
      let (n2, fn) := foldFunParams params n1 body
      some (n2, .Val true (.Variable name ()) fn)
termination_by structural f _ _ => f

/-- Desugar::transform_expr (`desugar.rs`), fuel-indexed.  Every arm other
than `DIf` is homomorphic; `DIf` is `transform_if`: a two-clause match on the
desugared condition, true-clause first, against the nullary constructor
patterns named `true` and `false`. -/
def transformExprF : Nat → Nat → UExpr → Option (Nat × CExpr Unit)
  | 0, _, _ => none
  | f + 1, n, .Binds _ binds ret => do
      let (n1, bs) ← transformStatementsF f n binds
      let (n2, r) ← transformExprF f n1 ret
      some (n2, .Binds () bs r)
  | f + 1, n, .BinOp op _ l r => do
      let (n1, l') ← transformExprF f n l
      let (n2, r') ← transformExprF f n1 r
      some (n2, .BinOp op () l' r')
  | f + 1, n, .Fn _ param body => do
      let (n1, b) ← transformExprF f n body
      some (n1, .Fn () param b)
  | f + 1, n, .App _ fn arg => do
      let (n1, fn') ← transformExprF f n fn
      let (n2, arg') ← transformExprF f n1 arg
      some (n2, .App () fn' arg')
  | f + 1, n, .Case _ cond clauses => do
      let (n1, c) ← transformExprF f n cond
      let (n2, cls) ← transformClausesF f n1 clauses
      some (n2, .Case () c cls)
  | f + 1, n, .Tuple _ tuple => do
      let (n1, es) ← transformExprsF f n tuple
      some (n1, .Tuple () es)
  | f + 1, n, .Constructor _ arg name => do
      let (n1, a) ← match arg with
        | none => some (n, (none : Option (CExpr Unit)))
        | some a => do
            let (n1, a') ← transformExprF f n a
            some (n1, some a')
      some (n1, .Constructor () a name)
  | _ + 1, n, .Symbol _ name => some (n, .Symbol () name)
  | _ + 1, n, .Literal _ value => some (n, .Literal () value)
  | f + 1, n, .DIf _ cond then_ else_ => do
      let (n1, c) ← transformExprF f n cond
      let (n2, t) ← transformExprF f n1 then_
      let (n3, e) ← transformExprF f n2 else_
      some (n3,
        .Case () c
          [(.Constructor () none (Symbol.new ("true")), t),
           (.Constructor () none (Symbol.new ("false")), e)])
termination_by structural f _ _ => f

/-- Statement-list helper of `transform_binds` (`binds.into_iter().map(|stmt|
self.transform_statement(stmt)).collect()`). -/
def transformStatementsF : Nat → Nat → List UStatement → Option (Nat × List (CStatement Unit))
  | 0, _, _ => none
  | _ + 1, n, [] => some (n, [])
  | f + 1, n, s :: rest => do
      let (n1, s') ← transformStatementF f n s
      let (n2, rest') ← transformStatementsF f n1 rest
      some (n2, s' :: rest')
termination_by structural f _ _ => f

/-- Clause-list helper of `transform_case` (`clauses.into_iter().map(|(p, e)|
(self.transform_pattern(p), self.transform_expr(e))).collect()`). -/
def transformClausesF : Nat → Nat → List (Pat Unit × UExpr) → Option (Nat × List (Pat Unit × CExpr Unit))
  | 0, _, _ => none
  | _ + 1, n, [] => some (n, [])
  | f + 1, n, (p, e) :: rest => do
      let p' := transformPattern p
      let (n1, e') ← transformExprF f n e
      let (n2, rest') ← transformClausesF f n1 rest
      some (n2, (p', e') :: rest')
termination_by structural f _ _ => f

/-- Expression-list helper of `transform_tuple` (`tuple.into_iter().map(|t|
self.transform_expr(t)).collect()`). -/
def transformExprsF : Nat → Nat → List UExpr → Option (Nat × List (CExpr Unit))
  | 0, _, _ => none
  | _ + 1, n, [] => some (n, [])
  | f + 1, n, e :: rest => do
      let (n1, e') ← transformExprF f n e
      let (n2, rest') ← transformExprsF f n1 rest
      some (n2, e' :: rest')
termination_by structural f _ _ => f
end

/-- Per-type entry of the datatype symbol table.  Modelled from the spec:
the table maps a type name to its ordered list of constructor names and
optional payload types (`ast::SymbolTable` is built by an earlier phase,
outside `src/`). -/
structure TypeInfo where
  constructors : List (Symbol × Option AType)

/-- Datatype/constructor symbol table.  Modelled from the spec: a read-only
mapping from type names to their declared structure and from constructor
names back to their owning type name, injected into `AST2HIR`. -/
structure SymbolTable where
  types : List (Symbol × TypeInfo)
  constructorToType : List (Symbol × Symbol)

/-- Association-list lookup by name equality, used for both symbol-table
directions. -/
def lookupAssoc {α : Type} : List (Symbol × α) → Symbol → Option α
  | [], _ => none
  | (k, v) :: rest, key => if k = key then some v else lookupAssoc rest key

/-- SymbolTable::get_type: the ordered constructor list of a declared type
name, if present. -/
def SymbolTable.getType (st : SymbolTable) (name : Symbol) : Option TypeInfo :=
  lookupAssoc st.types name

/-- SymbolTable::get_datatype_of_constructor: the owning type name of a
constructor, if present. -/
def SymbolTable.getDatatypeOfConstructor (st : SymbolTable) (name : Symbol) : Option Symbol :=
  lookupAssoc st.constructorToType name

/-- Linear scan of `conv_constructor_name`
(`.position(|(cname, _)| cname == name)` in `ast2hir.rs`): the zero-based
index of the first constructor entry with the given name. -/
def positionOf : List (Symbol × Option AType) → Symbol → Option Nat
  | [], _ => none
  | (cname, _) :: rest, name =>
      if cname = name then some 0 else (positionOf rest name).map (· + 1)

/-- AST2HIR::conv_constructor_name (`ast2hir.rs` lines 301–315): resolves a
constructor to its discriminant by looking up the owning type, then the
type's entry, then linearly scanning the declared constructor list; each
`expect` (a prior-phase invariant violation) is embedded as `none`. -/
def convConstructorName (st : SymbolTable) (name : Symbol) : Option Nat := do
  let typename ← st.getDatatypeOfConstructor name
  let typeInfo ← st.getType typename
  positionOf typeInfo.constructors name

mutual
/-- AST2HIR::conv_ty (`ast2hir.rs` lines 41–63), fuel-indexed because the
`Datatype` arm recurses into payload types drawn from the symbol table, not
into subterms.  The `Variable` arm is the `panic!("polymorphism is not
supported yet")` path, embedded as `none`. -/
def convTyF : Nat → SymbolTable → AType → Option HTy
  | 0, _, _ => none
  | _ + 1, _, .Int => some .Int
  | _ + 1, _, .Real => some .Real
  | f + 1, st, .Tuple tys => do
      let tys' ← convTysF f st tys
      some (.Tuple tys')
  | f + 1, st, .Fun arg ret => do
      let a ← convTyF f st arg
      let r ← convTyF f st ret
      some (.Fun a r)
  | f + 1, st, .Datatype name => do
      let typeInfo ← st.getType name
      let ds ← convDescriminantsF f st 0 typeInfo.constructors
      some (.Datatype ds)
  | _ + 1, _, .Variable _ => none
termination_by structural f _ _ => f

/-- List helper of the `Tuple` arm of `conv_ty`
(`tys.into_iter().map(|ty| self.conv_ty(ty)).collect()`). -/
def convTysF : Nat → SymbolTable → List AType → Option (List HTy)
  | 0, _, _ => none
  | _ + 1, _, [] => some []
  | f + 1, st, ty :: rest => do
      let h ← convTyF f st ty
      let rest' ← convTysF f st rest
      some (h :: rest')
termination_by structural f _ _ => f

/-- Enumeration helper of the `Datatype` arm of `conv_ty`
(`constructors.into_iter().enumerate().map(|(i, (_, ty))| (i as u32,
ty.as_ref().map(…)))`). -/
def convDescriminantsF : Nat → SymbolTable → Nat → List (Symbol × Option AType) →
    Option (List (Nat × Option HTy))
  | 0, _, _, _ => none
  | _ + 1, _, _, [] => some []
  | f + 1, st, i, (_, payload) :: rest => do
      let p ← match payload with
        | none => some (none : Option HTy)
        | some ty => do
            let h ← convTyF f st ty
            some (some h)
      let rest' ← convDescriminantsF f st (i + 1) rest
      some ((i, p) :: rest')
termination_by structural f _ _ _ => f
end

/-- AST2HIR::force_tuple (`ast2hir.rs` lines 33–39): converts the element
types of a `Tuple` type and panics (`none`) on any other shape. -/
def forceTupleF (f : Nat) (st : SymbolTable) : AType → Option (List HTy)
  | .Tuple tys => convTysF f st tys
  | _ => none

/-- AST2HIR::conv_pat (`ast2hir.rs` lines 272–299).  `Wildcard` lowers to a
variable pattern named by `Symbol::new("_")`. -/
def convPatF (f : Nat) (st : SymbolTable) : Pat AType → Option HPattern
  | .Constant value ty => do
      let hty ← convTyF f st ty
      some (.Constant value hty)
  | .Constructor ty arg name => do
      let hty ← convTyF f st ty
      let harg ← match arg with
        | none => some (none : Option (HTy × Symbol))
        | some (aty, sym) => do
            let h ← convTyF f st aty
            some (some (h, sym))
      let d ← convConstructorName st name
      some (.Constructor hty harg d)
  | .Tuple tuple _ => do
      let pairs ← tuple.mapM (fun p => do
        let h ← convTyF f st p.1
        some (h, p.2))
      some (.Tuple (pairs.map Prod.snd) (pairs.map Prod.fst))
  | .Variable name ty => do
      let hty ← convTyF f st ty
      some (.Var name hty)
  | .Wildcard ty => do
      let hty ← convTyF f st ty
      some (.Var (Symbol.new ("_")) hty)

/-- Unzip pipeline of the tuple-pattern arm of `conv_statement`
(`ast2hir.rs` lines 156–167): for each bound (name, type) pair, in `binds()`
order, the lowered type together with the symbol expression referring to the
bound variable. -/
def convBindTysF (f : Nat) (st : SymbolTable) : List (Symbol × AType) →
    Option (List (HTy × HExpr))
  | [] => some []
  | (name, aty) :: rest => do
      let hty ← convTyF f st aty
      let rest' ← convBindTysF f st rest
      some ((hty, .Sym hty name) :: rest')

/-- Projection loop of the tuple-pattern arm of `conv_statement`
(`ast2hir.rs` lines 192–204): for each bound variable, at enumeration index
`i`, one binding of that variable to `Proj { index: i }` applied to the
synthesized tuple symbol, carrying the original `rec` flag. -/
def convProjsF (f : Nat) (st : SymbolTable) (r : Bool) (tupleTy : HTy)
    (tmp : Symbol) : Nat → List (Symbol × AType) → Option (List HVal)
  | _, [] => some []
  | i, (var, aty) :: rest => do
      let hty ← convTyF f st aty
      let rest' ← convProjsF f st r tupleTy tmp (i + 1) rest
      some (.mk hty r var (.Proj hty i (.Sym tupleTy tmp)) :: rest')

mutual
/-- AST2HIR::conv_statement (`ast2hir.rs` lines 73–210), fuel-indexed; the
third argument is the fresh-name counter.  `Datatype` is ignored; the `Fun`
arm re-invokes `conv_statement` on its own argument (`s @
ast::Statement::Fun { .. } => self.conv_statement(s)`); `Val` expands by
pattern shape: variable → one direct binding with `rec: false`; wildcard,
constant and constructor → one binding under a fresh `#g` name; tuple → the
match-then-project expansion. -/
def convStatementF : Nat → SymbolTable → Nat → CStatement AType → Option (Nat × List HVal)
  | 0, _, _, _ => none
  | _ + 1, _, n, .Datatype _ _ => some (n, [])
  | f + 1, st, n, .Fun name params expr => convStatementF f st n (.Fun name params expr)
  | f + 1, st, n, .Val r pattern expr =>
      match pattern with
      | .Variable name ty => do
          let hty ← convTyF f st ty
          let (n1, he) ← convExprF f st n expr
          some (n1, [.mk hty false name he])
      | .Wildcard ty => do
          let hty ← convTyF f st ty
          let g : Symbol := ⟨gTag, n⟩
          let (n1, he) ← convExprF f st (n + 1) expr
          some (n1, [.mk hty false g he])
      | .Constant _ ty => do
          let hty ← convTyF f st ty
          let g : Symbol := ⟨gTag, n⟩
          let (n1, he) ← convExprF f st (n + 1) expr
          some (n1, [.mk hty false g he])
      | .Constructor ty _ _ => do
          let hty ← convTyF f st ty
          let g : Symbol := ⟨gTag, n⟩
          let (n1, he) ← convExprF f st (n + 1) expr
          some (n1, [.mk hty false g he])
      | .Tuple tuple ty => do
          let binds := (Pat.Tuple tuple ty).binds
          let pairs ← convBindTysF f st binds
          let tys := pairs.map Prod.fst
          let tupleTys := HTy.Tuple tys
          let tupleE := HExpr.Tuple tys (pairs.map Prod.snd)
          let hpat ← convPatF f st (.Tuple tuple ty)
          let (n1, he) ← convExprF f st n expr
          let caseE := HExpr.Case tupleTys he [(hpat, tupleE)]
          let g : Symbol := ⟨gTag, n1⟩
          let projs ← convProjsF f st r tupleTys g 0 binds
          some (n1 + 1, .mk tupleTys false g caseE :: projs)
termination_by structural f _ _ _ => f

/-- AST2HIR::conv_expr (`ast2hir.rs` lines 212–271), fuel-indexed.  The `Fn`
arm panics (`none`) unless the node's type is a function type; `App` builds
the single-argument HIR application (`app1`); `Constructor` resolves the
discriminant via `conv_constructor_name`. -/
def convExprF : Nat → SymbolTable → Nat → CExpr AType → Option (Nat × HExpr)
  | 0, _, _, _ => none
  | f + 1, st, n, .Binds ty binds ret => do
      let hty ← convTyF f st ty
      let (n1, bs) ← convStatementsF f st n binds
      let (n2, r) ← convExprF f st n1 ret
      some (n2, .Binds hty bs r)
  | f + 1, st, n, .BinOp op ty l r => do
      let hty ← convTyF f st ty
      let (n1, hl) ← convExprF f st n l
      let (n2, hr) ← convExprF f st n1 r
      some (n2, .BinOp hty op hl hr)
  | f + 1, st, n, .Fn ty param body =>
      match ty with
      | .Fun paramTy bodyTy => do
          let hparam ← convTyF f st paramTy
          let hbodyTy ← convTyF f st bodyTy
          let (n1, hbody) ← convExprF f st n body
          some (n1, .Fun (hparam, param) hbodyTy hbody [])
      | _ => none
  | f + 1, st, n, .App ty fn arg => do
      let (n1, hf) ← convExprF f st n fn
      let hty ← convTyF f st ty
      let (n2, ha) ← convExprF f st n1 arg
      some (n2, .App hty hf ha)
  | f + 1, st, n, .Case ty cond clauses => do
      let hty ← convTyF f st ty
      let (n1, hc) ← convExprF f st n cond
      let (n2, arms) ← convArmsF f st n1 clauses
      some (n2, .Case hty hc arms)
  | f + 1, st, n, .Tuple ty tuple => do
      let tys ← forceTupleF f st ty
      let (n1, es) ← convExprsF f st n tuple
      some (n1, .Tuple tys es)
  | f + 1, st, n, .Constructor ty arg name => do
      let hty ← convTyF f st ty
      let (n1, harg) ← match arg with
        | none => some (n, (none : Option HExpr))
        | some a => do
            let (n1, ha) ← convExprF f st n a
            some (n1, some ha)
      let d ← convConstructorName st name
      some (n1, .Constructor hty harg d)
  | f + 1, st, n, .Symbol ty name => do
      let hty ← convTyF f st ty
      some (n, .Sym hty name)
  | f + 1, st, n, .Literal ty value => do
      let hty ← convTyF f st ty
      some (n, .Lit hty value)
termination_by structural f _ _ _ => f

/-- Statement-list helper of the `Binds` arm of `conv_expr`
(`binds.into_iter().flat_map(|s| self.conv_statement(s)).collect()`): note
the flattening, since one statement expands to several bindings. -/
def convStatementsF : Nat → SymbolTable → Nat → List (CStatement AType) →
    Option (Nat × List HVal)
  | 0, _, _, _ => none
  | _ + 1, _, n, [] => some (n, [])
  | f + 1, st, n, s :: rest => do
      let (n1, vs) ← convStatementF f st n s
      let (n2, rest') ← convStatementsF f st n1 rest
      some (n2, vs ++ rest')
termination_by structural f _ _ _ => f

/-- Clause-list helper of the `Case` arm of `conv_expr`
(`clauses.into_iter().map(|(pat, expr)| (self.conv_pat(pat),
self.conv_expr(expr))).collect()`). -/
def convArmsF : Nat → SymbolTable → Nat → List (Pat AType × CExpr AType) →
    Option (Nat × List (HPattern × HExpr))
  | 0, _, _, _ => none
  | _ + 1, _, n, [] => some (n, [])
  | f + 1, st, n, (p, e) :: rest => do
      let hp ← convPatF f st p
      let (n1, he) ← convExprF f st n e
      let (n2, rest') ← convArmsF f st n1 rest
      some (n2, (hp, he) :: rest')
termination_by structural f _ _ _ => f

/-- Expression-list helper of the `Tuple` arm of `conv_expr`
(`tuple.into_iter().map(|e| self.conv_expr(e)).collect()`). -/
def convExprsF : Nat → SymbolTable → Nat → List (CExpr AType) →
    Option (Nat × List HExpr)
  | 0, _, _, _ => none
  | _ + 1, _, n, [] => some (n, [])
  | f + 1, st, n, e :: rest => do
      let (n1, he) ← convExprF f st n e
      let (n2, rest') ← convExprsF f st n1 rest
      some (n2, he :: rest')
termination_by structural f _ _ _ => f
end

/-- Page size of the runtime (`page_size()` in `webml-rt/src/lib.rs`):
64 KiB, the wasm linear-memory growth granularity. -/
def pageSize : Nat := 64 * 1024

/-- Byte size of the `Page` header struct on the wasm32 target
(`#[repr(C)] struct Page { top: usize, data: *mut u8 }`: a 4-byte `usize`
followed by a 4-byte pointer). -/
def sizeOfPage : Nat := 8

/-- Byte offset of the `data` field inside `Page` (after the 4-byte `top`
field, wasm32 `repr(C)` layout). -/
def dataOffset : Nat := 4

/-- Runtime state of `webml-rt`: the linear-memory page count, the
environment's growth ceiling in pages, the memory contents (`mem a` is the
pointer-sized word stored at byte address `a`), and the two globals `GC`
(bump-arena page pointer) and `HEAD` (free-list head pointer; 0 is null). -/
structure RTState where
  pagesCount : Nat
  ceiling : Nat
  mem : Nat → Nat
  gc : Nat
  head : Nat

/-- Pointer-sized store: write value `v` at address `a`. -/
def store (m : Nat → Nat) (a v : Nat) : Nat → Nat :=
  fun b => if b = a then v else m b

/-- Wasm `memory.grow(0, 1)`.  Modelled from the spec: growth by one page
succeeds while the region is below its environment-imposed ceiling,
returning the previous size in pages with the new page zero-initialized, and
fails returning −1 once the ceiling is reached. -/
def grow (s : RTState) : Int × RTState :=
  if s.pagesCount < s.ceiling then
    (Int.ofNat s.pagesCount,
      { s with
          pagesCount := s.pagesCount + 1,
          mem := fun a =>
            if s.pagesCount * pageSize ≤ a ∧ a < (s.pagesCount + 1) * pageSize
            then 0 else s.mem a })
  else (-1, s)

/-- Truncating cast to `u32` (`ret as u32`). -/
def wrap32 (x : Int) : Nat := (x % (2 ^ 32)).toNat

/-- Page base address computed by `init` and `page_alloc`:
`((ret as u32) * page_size()) as …`, with `u32` wrap-around. -/
def pagePtrOf (ret : Int) : Nat := (wrap32 ret * pageSize) % 2 ^ 32

/-- webml-rt `init()` (`lib.rs` lines 16–23): grows the region by one page,
takes the new page's base as a `*mut Page`, computes
`data_ptr = page_ptr.offset(8)` — a typed-pointer offset, hence 8 *
`size_of::<Page>()` bytes — stores it into the page header's `data` field,
and records the page in the global `GC`.  The `top` field is never written;
it reads 0 only because freshly grown wasm memory is zero-initialized. -/
def init (s : RTState) : RTState :=
  let (ret, s1) := grow s
  let pagePtr := pagePtrOf ret
  let dataPtr := (pagePtr + 8 * sizeOfPage) % 2 ^ 32
  { s1 with mem := store s1.mem (pagePtr + dataOffset) dataPtr, gc := pagePtr }

/-- webml-rt `alloc(size)` (`lib.rs` lines 26–30): returns
`(*GC).data.offset((*GC).top)` and bumps `(*GC).top` by `size`; no capacity
check. -/
def alloc (s : RTState) (size : Nat) : Nat × RTState :=
  let ret := (s.mem (s.gc + dataOffset) + s.mem s.gc) % 2 ^ 32
  (ret, { s with mem := store s.mem s.gc ((s.mem s.gc + size) % 2 ^ 32) })

/-- webml-rt `page_alloc()` (`lib.rs` lines 35–51): if `HEAD` is non-null,
pops and returns it (the next link is the first word of the popped page);
otherwise grows the region by one page, returning a null pointer if growth
fails. -/
def page_alloc (s : RTState) : Nat × RTState :=
  if s.head ≠ 0 then
    (s.head, { s with head := s.mem s.head })
  else
    let (ret, s1) := grow s
    if ret = -1 then (0, s1)
    else (pagePtrOf ret, s1)

/-- webml-rt `page_free(page)` (`lib.rs` lines 54–58): writes the current
free-list head into the first word of `page`, then makes `page` the new
head. -/
def page_free (s : RTState) (page : Nat) : RTState :=
  { s with mem := store s.mem page s.head, head := page }

/-- webml-rt `memory_used()` (`lib.rs` lines 61–63): page size times the
region's current page count. -/
def memory_used (s : RTState) : Nat := pageSize * s.pagesCount

/-- Iterated `page_alloc`: the list of returned pointers over `k`
consecutive calls, together with the final state. -/
def allocIter : Nat → RTState → List Nat × RTState
  | 0, s => ([], s)
  | k + 1, s =>
      let (p, s1) := page_alloc s
      let (l, s2) := allocIter k s1
      (p :: l, s2)

/-- Curried function shape demanded by the spec for `fun name p1 … pn =
body` (spec-side companion of `foldFunParams`, following the spec's words):
working right-to-left over the parameter list, nested single-argument
function literals, each binding a fresh `#arg` symbol whose body is a
one-clause match of that symbol against the original parameter pattern.
With base counter `n`, the innermost wrapper (for the last parameter) draws
the first fresh identity, so the wrapper for the head parameter draws
`n + (length of the remaining parameters)`. -/
def mkCurriedSpec : Nat → List (Pat Unit) → CExpr Unit → CExpr Unit
  | _, [], body => body
  | n, p :: ps, body =>
      let g : Symbol := ⟨argTag, n + ps.length⟩
      .Fn () g (.Case () (.Symbol () g) [(p, mkCurriedSpec n ps body)])

/-- Projection bindings demanded by the spec for the tuple-pattern expansion
(spec-side companion of `convProjsF`, following the spec's words): for each
introduced variable, in `binds()` order starting at index `i`, one binding
of that variable (with its lowered type, taken from the paired unzip result)
to the projection of the synthesized tuple at that zero-based index,
carrying the original binding's `rec` flag. -/
def tupleProjectionsSpec (r : Bool) (tupleTy : HTy) (tmp : Symbol) :
    Nat → List (Symbol × AType) → List (HTy × HExpr) → List HVal
  | _, [], _ => []
  | _, _ :: _, [] => []
  | i, (var, _) :: restB, (hty, _) :: restP =>
      .mk hty r var (.Proj hty i (.Sym tupleTy tmp)) ::
        tupleProjectionsSpec r tupleTy tmp (i + 1) restB restP

/-- Concrete symbol table with one datatype `t` whose single constructor `C`
carries an `Int` payload. -/
def tableT : SymbolTable :=
  { types := [(⟨("t"), 0⟩, ⟨[(⟨("C"), 0⟩, some .Int)]⟩)],
    constructorToType := [(⟨("C"), 0⟩, ⟨("t"), 0⟩)] }

/-- Concrete symbol table with one datatype `t` declaring constructors
`[A, B, C]` in that order, all nullary. -/
def tableABC : SymbolTable :=
  { types := [(⟨("t"), 0⟩,
      ⟨[(⟨("A"), 0⟩, none), (⟨("B"), 0⟩, none), (⟨("C"), 0⟩, none)]⟩)],
    constructorToType :=
      [(⟨("A"), 0⟩, ⟨("t"), 0⟩), (⟨("B"), 0⟩, ⟨("t"), 0⟩),
       (⟨("C"), 0⟩, ⟨("t"), 0⟩)] }

/-- Constructor list of `tableABC`'s datatype `t`. -/
def infoABC : TypeInfo :=
  ⟨[(⟨("A"), 0⟩, none), (⟨("B"), 0⟩, none), (⟨("C"), 0⟩, none)]⟩

/-- Concrete runtime state before `init`: an empty region with room to
grow. -/
def rtFresh : RTState := ⟨0, 4, fun _ => 0, 0, 0⟩

/-- Concrete runtime state with one mapped page, an empty free-list, and
room to grow. -/
def rtOnePage : RTState := ⟨1, 4, fun _ => 0, 0, 0⟩

/-- Concrete runtime state at the growth ceiling with an empty free-list. -/
def rtFull : RTState := ⟨2, 2, fun _ => 0, 0, 0⟩

/-- C9: for every free-list state and every page pointer `p` (a page pointer
is non-null; null is `page_alloc`'s failure sentinel), `page_free(p)`
followed by `page_alloc()` returns `p` — most-recently-freed page reused
first — and leaves the free-list head equal to its value before the
`page_free`. -/
theorem c9_page_free_then_page_alloc (s : RTState) (p : Nat) (hp : p ≠ 0) :
    (page_alloc (page_free s p)).1 = p ∧
    (page_alloc (page_free s p)).2.head = s.head := by
  simp [page_alloc, page_free, store, hp]

/-- Witness for C9 at a concrete one-page state and the page pointer
65536. -/
theorem c9_page_free_then_page_alloc_witness :
    (65536 : Nat) ≠ 0 ∧
    ((page_alloc (page_free rtOnePage 65536)).1 = 65536 ∧
     (page_alloc (page_free rtOnePage 65536)).2.head = rtOnePage.head) :=
  ⟨by decide, c9_page_free_then_page_alloc rtOnePage 65536 (by decide)⟩

/-- C10: whenever the free-list is empty (`HEAD` null) and growth has hit
the ceiling, `page_alloc` returns the null pointer and leaves the state —
in particular the free-list head — unchanged, and therefore every one of
`k` subsequent calls also returns null without corrupting the free-list. -/
theorem c10_page_alloc_exhaustion (s : RTState) (h1 : s.head = 0)
    (h2 : s.ceiling ≤ s.pagesCount) :
    page_alloc s = (0, s) ∧ ∀ k, allocIter k s = (List.replicate k 0, s) := by
  have hpa : page_alloc s = (0, s) := by
    simp [page_alloc, grow, h1, Nat.not_lt.mpr h2]
  refine ⟨hpa, fun k => ?_⟩
  induction k with
  | zero => simp [allocIter]
  | succ k ih => simp [allocIter, hpa, ih, List.replicate_succ]

/-- Witness for C10 at a concrete exhausted state (two pages mapped, ceiling
two, empty free-list), iterated three times. -/
theorem c10_page_alloc_exhaustion_witness :
    rtFull.head = 0 ∧ rtFull.ceiling ≤ rtFull.pagesCount ∧
    page_alloc rtFull = (0, rtFull) ∧
    allocIter 3 rtFull = (List.replicate 3 0, rtFull) :=
  ⟨rfl, by decide,
   (c10_page_alloc_exhaustion rtFull rfl (by decide)).1,
   (c10_page_alloc_exhaustion rtFull rfl (by decide)).2 3⟩

/-- C2 (code bug): evaluating `init` from a fresh zeroed region shows that
it grows the region by one page, records the page base (address 0) in `GC`,
and leaves the header's `top` word zero — but stores 64, not 8, into the
header's `data` field: `page_ptr.offset(8)` on a `*mut Page` advances by
8 · `size_of::<Page>()` = 64 bytes, not by the 8-byte header reservation
the claim (and the adjacent `// for alignment` comment) describe. -/
theorem c2_init_data_pointer_not_header_sized :
    (init rtFresh).pagesCount = 1 ∧ (init rtFresh).gc = 0 ∧
    (init rtFresh).mem 0 = 0 ∧ (init rtFresh).mem 4 = 64 ∧
    ¬ ((init rtFresh).mem 4 = 8) := by
  refine ⟨rfl, rfl, ?_, ?_, ?_⟩ <;> decide

/-- C1 (code bug): evaluating `conv_statement` on `val C(x) = 5` (with `C`
the `Int`-payload constructor of datatype `t`) shows that the constructor
arm emits exactly one non-recursive binding under the fresh name `#g0`,
whose expression is just the lowered scrutinee — no one-clause match, no
projection, and no binding for the introduced variable `x`, contrary to the
match-then-project expansion the claim (and the comment block directly above
the arm in `ast2hir.rs`) describe. -/
theorem c1_constructor_pattern_single_binding :
    convStatementF 9 tableT 0
      (.Val false
        (.Constructor (.Datatype ⟨("t"), 0⟩) (some (.Int, ⟨("x"), 0⟩)) ⟨("C"), 0⟩)
        (.Literal .Int 5))
      = some (1, [.mk (.Datatype [(0, some .Int)]) false ⟨("#g"), 0⟩ (.Lit .Int 5)]) := rfl

/-- C3 (counterexample): a `val rec`-marked binding with a variable pattern
(`val rec f = 3` after elaboration) lowers to a binding whose recursiveness
flag is `false`, so the flag does not equal the surface binding's `rec`
flag. -/
theorem c3_rec_flag_counterexample :
    convStatementF 5 tableT 0
      (.Val true (.Variable ⟨("f"), 0⟩ .Int) (.Literal .Int 3))
      = some (0, [.mk .Int false ⟨("f"), 0⟩ (.Lit .Int 3)]) ∧
    (false : Bool) ≠ true :=
  ⟨rfl, by decide⟩

/-- C3 (amended): for every `val` binding whose pattern is a single variable
pattern, lowering produces exactly one HIR binding under that variable's
name — with the recursiveness flag always `false`, regardless of the surface
binding's `rec` flag (the variable arm of `conv_statement` hard-codes
`rec: false`). -/
theorem c3_variable_pattern_direct_binding (f n : Nat) (st : SymbolTable)
    (r : Bool) (name : Symbol) (ty : AType) (expr : CExpr AType)
    (hty : HTy) (n1 : Nat) (he : HExpr)
    (h1 : convTyF f st ty = some hty)
    (h2 : convExprF f st n expr = some (n1, he)) :
    convStatementF (f + 1) st n (.Val r (.Variable name ty) expr)
      = some (n1, [.mk hty false name he]) := by
  simp [convStatementF, h1, h2]

/-- Witness for the amended C3 at a concrete `rec`-marked binding. -/
theorem c3_variable_pattern_direct_binding_witness :
    convTyF 2 tableT .Int = some .Int ∧
    convExprF 2 tableT 0 (.Literal .Int 2) = some (0, .Lit .Int 2) ∧
    convStatementF 3 tableT 0
      (.Val true (.Variable ⟨("y"), 0⟩ .Int) (.Literal .Int 2))
      = some (0, [.mk .Int false ⟨("y"), 0⟩ (.Lit .Int 2)]) :=
  ⟨rfl, rfl,
   c3_variable_pattern_direct_binding 2 0 tableT true ⟨("y"), 0⟩ .Int
     (.Literal .Int 2) .Int 0 (.Lit .Int 2) rfl rfl⟩

/-- C4 (code bug): `conv_statement` does not terminate on any `Fun`
statement: the arm `s @ ast::Statement::Fun { .. } => self.conv_statement(s)`
re-invokes the function on its own argument, so in the fuel-indexed
embedding every fuel budget is exhausted (`none` for all fuel) on the
concrete statement `fun f = 0` — no list of HIR bindings is ever
returned. -/
theorem c4_conv_statement_fun_diverges :
    ∀ f n, convStatementF f tableT n (.Fun ⟨("f"), 0⟩ [] (.Literal .Int 0)) = none := by
  intro f
  induction f with
  | zero => intro n; rfl
  | succ f ih => intro n; simpa [convStatementF] using ih n

/-- C7: `transform_if` rewrites every conditional into a match on the
desugared condition whose clause list is exactly the true-clause (nullary
constructor pattern named `true`, paired with the desugared then-branch)
followed by the false-clause (nullary constructor pattern named `false`,
paired with the desugared else-branch). -/
theorem c7_if_desugaring (f n : Nat) (c t e : UExpr) (n1 n2 n3 : Nat)
    (c' t' e' : CExpr Unit)
    (hc : transformExprF f n c = some (n1, c'))
    (ht : transformExprF f n1 t = some (n2, t'))
    (he : transformExprF f n2 e = some (n3, e')) :
    transformExprF (f + 1) n (.DIf () c t e)
      = some (n3, .Case () c'
          [(.Constructor () none (Symbol.new ("true")), t'),
           (.Constructor () none (Symbol.new ("false")), e')]) := by
  simp [transformExprF, hc, ht, he]

/-- Witness for C7 at the spec's concrete example `if true then 1 else 2`. -/
theorem c7_if_desugaring_witness :
    transformExprF 2 0
      (.DIf () (.Constructor () none (Symbol.new ("true")))
        (.Literal () 1) (.Literal () 2))
      = some (0, .Case () (.Constructor () none (Symbol.new ("true")))
          [(.Constructor () none (Symbol.new ("true")), .Literal () 1),
           (.Constructor () none (Symbol.new ("false")), .Literal () 2)]) :=
  c7_if_desugaring 1 0 (.Constructor () none (Symbol.new ("true")))
    (.Literal () 1) (.Literal () 2) 0 0 0
    (.Constructor () none (Symbol.new ("true"))) (.Literal () 1) (.Literal () 2)
    rfl rfl rfl

/-- Fold characterization of `transform_fun`'s reverse fold: folding over
the reversed parameter list from counter `n` equals the right-to-left
curried shape `mkCurriedSpec`, consuming one fresh identity per parameter
(the last parameter's wrapper draws the first identity). -/
theorem foldFunParams_spec (ps : List (Pat Unit)) :
    ∀ (n : Nat) (b : CExpr Unit),
      foldFunParams ps n b = (n + ps.length, mkCurriedSpec n ps b) := by
  induction ps with
  | nil => intro n b; simp [foldFunParams, mkCurriedSpec]
  | cons p rest ih =>
      intro n b
      have ih' := ih n b
      simp only [foldFunParams] at ih' ⊢
      rw [List.reverse_cons, List.foldl_append, ih']
      simp [mkCurriedSpec, List.length_cons, Nat.add_assoc]

/-- C6: `transform_fun` rewrites `fun name p1 … pn = body` into a value
binding of the original name, always marked recursive, whose expression is
the nest of single-argument function literals built right-to-left over the
parameter list: each level binds a freshly synthesized `#arg` symbol and its
body is a one-clause match of that symbol against the original parameter
pattern. -/
theorem c6_fun_desugaring (f n : Nat) (name : Symbol)
    (params : List (Pat Unit)) (expr : UExpr) (n1 : Nat) (body : CExpr Unit)
    (h : transformExprF f n expr = some (n1, body)) :
    transformStatementF (f + 1) n (.Fun name params expr)
      = some (n1 + params.length,
          .Val true (.Variable name ()) (mkCurriedSpec n1 params body)) := by
  simp [transformStatementF, h, foldFunParams_spec]

/-- Witness for C6 at the spec's concrete example `fun add x y = x + y`:
the outer function binds `#arg1` and matches it against `x`, the inner one
binds `#arg0` (drawn first, for the rightmost parameter) and matches it
against `y`, and the binding for `add` is recursive. -/
theorem c6_fun_desugaring_witness :
    transformStatementF 3 0
      (.Fun ⟨("add"), 0⟩ [.Variable ⟨("x"), 0⟩ (), .Variable ⟨("y"), 0⟩ ()]
        (.BinOp ⟨("+"), 0⟩ () (.Symbol () ⟨("x"), 0⟩) (.Symbol () ⟨("y"), 0⟩)))
      = some (2, .Val true (.Variable ⟨("add"), 0⟩ ())
          (.Fn () ⟨("#arg"), 1⟩
            (.Case () (.Symbol () ⟨("#arg"), 1⟩)
              [(.Variable ⟨("x"), 0⟩ (),
                .Fn () ⟨("#arg"), 0⟩
                  (.Case () (.Symbol () ⟨("#arg"), 0⟩)
                    [(.Variable ⟨("y"), 0⟩ (),
                      .BinOp ⟨("+"), 0⟩ () (.Symbol () ⟨("x"), 0⟩)
                        (.Symbol () ⟨("y"), 0⟩))]))]))) :=
  c6_fun_desugaring 2 0 ⟨("add"), 0⟩
    [.Variable ⟨("x"), 0⟩ (), .Variable ⟨("y"), 0⟩ ()]
    (.BinOp ⟨("+"), 0⟩ () (.Symbol () ⟨("x"), 0⟩) (.Symbol () ⟨("y"), 0⟩))
    0 (.BinOp ⟨("+"), 0⟩ () (.Symbol () ⟨("x"), 0⟩) (.Symbol () ⟨("y"), 0⟩))
    rfl

/-- Position of the `i`-th constructor name under a duplicate-free declared
list: the linear scan of `conv_constructor_name` returns exactly `i`. -/
theorem positionOf_get_of_nodup :
    ∀ (l : List (Symbol × Option AType)), (l.map Prod.fst).Nodup →
      ∀ (i : Nat) (hi : i < l.length),
        positionOf l (l.get ⟨i, hi⟩).1 = some i := by
  intro l
  induction l with
  | nil => intro _ i hi; simp at hi
  | cons c rest ih =>
      intro hnd i hi
      rw [List.map_cons, List.nodup_cons] at hnd
      cases i with
      | zero => simp [positionOf]
      | succ i =>
          have hi' : i < rest.length := by simpa using hi
          have hmem : (rest.get ⟨i, hi'⟩).1 ∈ rest.map Prod.fst :=
            List.mem_map_of_mem Prod.fst (rest.get_mem i hi')
          have hne : ¬ (c.1 = (rest.get ⟨i, hi'⟩).1) := fun hEq => hnd.1 (hEq ▸ hmem)
          have hrec := ih hnd.2 i hi'
          simp only [List.get_eq_getElem] at hne hrec ⊢
          simp [positionOf, hne, hrec]

/-- C8: for every constructor name present in the symbol table (it has an
owning type, the owning type is declared, and the declared constructor names
are duplicate-free), `conv_constructor_name` resolves the constructor at
zero-based position `i` of its owning type's declared constructor list to
the discriminant `i`; the resolution reads only the immutable table, so
repeated resolutions within one compilation unit coincide definitionally. -/
theorem c8_constructor_discriminant_position (st : SymbolTable)
    (tyname : Symbol) (info : TypeInfo) (i : Nat)
    (hi : i < info.constructors.length)
    (hnd : (info.constructors.map Prod.fst).Nodup)
    (hown : st.getDatatypeOfConstructor (info.constructors.get ⟨i, hi⟩).1 = some tyname)
    (hty : st.getType tyname = some info) :
    convConstructorName st (info.constructors.get ⟨i, hi⟩).1 = some i := by
  have hpos := positionOf_get_of_nodup _ hnd i hi
  simp only [List.get_eq_getElem] at hown hpos ⊢
  simp [convConstructorName, hown, hty, hpos]

/-- Witness for C8 on the declared list `[A, B, C]`: `B`, at position 1,
resolves to discriminant 1. -/
theorem c8_constructor_discriminant_position_witness :
    (1 < infoABC.constructors.length ∧
      (infoABC.constructors.map Prod.fst).Nodup ∧
      tableABC.getDatatypeOfConstructor ⟨("B"), 0⟩ = some ⟨("t"), 0⟩ ∧
      tableABC.getType ⟨("t"), 0⟩ = some infoABC) ∧
    convConstructorName tableABC ⟨("B"), 0⟩ = some 1 :=
  ⟨⟨by decide, by decide, rfl, rfl⟩,
   c8_constructor_discriminant_position tableABC ⟨("t"), 0⟩ infoABC 1
     (by decide) (by decide) rfl rfl⟩

/-- Projection loop agrees with the spec-side projection description: when
the unzip pipeline succeeds on the bound-variable list, the enumeration loop
succeeds and yields exactly the per-variable projection bindings of
`tupleProjectionsSpec`, from any starting index. -/
theorem convProjsF_of_convBindTysF (f : Nat) (st : SymbolTable) (r : Bool)
    (tupleTy : HTy) (tmp : Symbol) :
    ∀ (l : List (Symbol × AType)) (pairs : List (HTy × HExpr)) (i : Nat),
      convBindTysF f st l = some pairs →
      convProjsF f st r tupleTy tmp i l
        = some (tupleProjectionsSpec r tupleTy tmp i l pairs) := by
  intro l
  induction l with
  | nil =>
      intro pairs i h
      simp [convBindTysF] at h
      subst h
      simp [convProjsF, tupleProjectionsSpec]
  | cons b rest ih =>
      obtain ⟨name, aty⟩ := b
      intro pairs i h
      cases hc : convTyF f st aty with
      | none => simp [convBindTysF, hc] at h
      | some hty =>
          cases hr : convBindTysF f st rest with
          | none => simp [convBindTysF, hc, hr] at h
          | some rest' =>
              simp [convBindTysF, hc, hr] at h
              subst h
              simp [convProjsF, hc, tupleProjectionsSpec, ih rest' (i + 1) hr]

/-- Characterization of the unzip pipeline: it yields one pair per bound
variable, in order, whose second component is the symbol expression of that
variable at its lowered type, the type being the lowering of the variable's
declared type. -/
theorem convBindTysF_char (f : Nat) (st : SymbolTable) :
    ∀ (l : List (Symbol × AType)) (pairs : List (HTy × HExpr)),
      convBindTysF f st l = some pairs →
      pairs.length = l.length ∧
      ∀ (j : Nat) (hj : j < pairs.length) (hj2 : j < l.length),
        (pairs.get ⟨j, hj⟩).2
            = HExpr.Sym (pairs.get ⟨j, hj⟩).1 (l.get ⟨j, hj2⟩).1 ∧
        convTyF f st (l.get ⟨j, hj2⟩).2 = some (pairs.get ⟨j, hj⟩).1 := by
  intro l
  induction l with
  | nil =>
      intro pairs h
      simp [convBindTysF] at h
      subst h
      simp
  | cons b rest ih =>
      obtain ⟨name, aty⟩ := b
      intro pairs h
      cases hc : convTyF f st aty with
      | none => simp [convBindTysF, hc] at h
      | some hty =>
          cases hr : convBindTysF f st rest with
          | none => simp [convBindTysF, hc, hr] at h
          | some rest' =>
              simp [convBindTysF, hc, hr] at h
              subst h
              obtain ⟨hlen, hch⟩ := ih rest' hr
              refine ⟨by simp [hlen], ?_⟩
              intro j hj hj2
              cases j with
              | zero => exact ⟨rfl, hc⟩
              | succ j =>
                  have hj' : j < rest'.length := by simpa using hj
                  have hj2' : j < rest.length := by simpa using hj2
                  simpa using hch j hj' hj2'

/-- C5: for every `val` binding with a tuple pattern, `conv_statement`
emits first one synthesized binding — always non-recursive, under a fresh
`#g` name — whose expression is a one-clause match over the lowered
scrutinee yielding the tuple of the variables the pattern introduces in
`binds()` order, and then, for each introduced variable in that order, one
binding of that variable to the projection of the synthesized tuple at the
variable's zero-based index, each per-variable binding carrying the original
surface binding's `rec` flag (the projection list is stated through the
spec-side `tupleProjectionsSpec`; the final conjuncts pin the tuple body to
the introduced variables, in order). -/
theorem c5_tuple_pattern_expansion (f n : Nat) (st : SymbolTable) (r : Bool)
    (tuple : List (AType × Symbol)) (ty : AType) (expr : CExpr AType)
    (pairs : List (HTy × HExpr)) (hpat : HPattern) (n1 : Nat) (he : HExpr)
    (h1 : convBindTysF f st ((Pat.Tuple tuple ty).binds) = some pairs)
    (h2 : convPatF f st (.Tuple tuple ty) = some hpat)
    (h3 : convExprF f st n expr = some (n1, he)) :
    convStatementF (f + 1) st n (.Val r (.Tuple tuple ty) expr)
      = some (n1 + 1,
          .mk (HTy.Tuple (pairs.map Prod.fst)) false ⟨("#g"), n1⟩
            (.Case (HTy.Tuple (pairs.map Prod.fst)) he
              [(hpat, .Tuple (pairs.map Prod.fst) (pairs.map Prod.snd))])
          :: tupleProjectionsSpec r (HTy.Tuple (pairs.map Prod.fst))
               ⟨("#g"), n1⟩ 0 ((Pat.Tuple tuple ty).binds) pairs) ∧
    pairs.length = tuple.length ∧
    (∀ (j : Nat) (hj : j < pairs.length) (hj2 : j < tuple.length),
        (pairs.get ⟨j, hj⟩).2
          = HExpr.Sym (pairs.get ⟨j, hj⟩).1 (tuple.get ⟨j, hj2⟩).2) := by
  obtain ⟨hlen, hch⟩ := convBindTysF_char f st _ pairs h1
  have hproj := convProjsF_of_convBindTysF f st r (HTy.Tuple (pairs.map Prod.fst))
    ⟨("#g"), n1⟩ _ pairs 0 h1
  refine ⟨?_, ?_, ?_⟩
  · simp [convStatementF, gTag, h1, h2, h3, hproj]
  · simpa [Pat.binds] using hlen
  · intro j hj hj2
    have hj2' : j < ((Pat.Tuple tuple ty).binds).length := by
      simpa [Pat.binds] using hj2
    have hc := (hch j hj hj2').1
    simpa [Pat.binds, List.get_eq_getElem, List.getElem_map] using hc

/-- Witness for C5 at the spec's concrete example `val rec (a, b) =
(10, 20)` (with `a : Int`, `b : Real`): the synthesized binding `#g0`
matches the pair against the tuple pattern and yields `(a, b)`, and the two
projection bindings carry the surface `rec` flag. -/
theorem c5_tuple_pattern_expansion_witness :
    convBindTysF 9 tableT
      ((Pat.Tuple [(AType.Int, ⟨("a"), 0⟩), (AType.Real, ⟨("b"), 0⟩)]
        (.Tuple [.Int, .Real])).binds)
      = some [(.Int, .Sym .Int ⟨("a"), 0⟩), (.Real, .Sym .Real ⟨("b"), 0⟩)] ∧
    convPatF 9 tableT
      (.Tuple [(AType.Int, ⟨("a"), 0⟩), (AType.Real, ⟨("b"), 0⟩)]
        (.Tuple [.Int, .Real]))
      = some (.Tuple [⟨("a"), 0⟩, ⟨("b"), 0⟩] [.Int, .Real]) ∧
    convExprF 9 tableT 0
      (.Tuple (.Tuple [.Int, .Real]) [.Literal .Int 10, .Literal .Real 20])
      = some (0, .Tuple [.Int, .Real] [.Lit .Int 10, .Lit .Real 20]) ∧
    convStatementF 10 tableT 0
      (.Val true
        (.Tuple [(AType.Int, ⟨("a"), 0⟩), (AType.Real, ⟨("b"), 0⟩)]
          (.Tuple [.Int, .Real]))
        (.Tuple (.Tuple [.Int, .Real]) [.Literal .Int 10, .Literal .Real 20]))
      = some (1,
          [.mk (.Tuple [.Int, .Real]) false ⟨("#g"), 0⟩
            (.Case (.Tuple [.Int, .Real])
              (.Tuple [.Int, .Real] [.Lit .Int 10, .Lit .Real 20])
              [(.Tuple [⟨("a"), 0⟩, ⟨("b"), 0⟩] [.Int, .Real],
                .Tuple [.Int, .Real]
                  [.Sym .Int ⟨("a"), 0⟩, .Sym .Real ⟨("b"), 0⟩])]),
           .mk .Int true ⟨("a"), 0⟩
             (.Proj .Int 0 (.Sym (.Tuple [.Int, .Real]) ⟨("#g"), 0⟩)),
           .mk .Real true ⟨("b"), 0⟩
             (.Proj .Real 1 (.Sym (.Tuple [.Int, .Real]) ⟨("#g"), 0⟩))]) :=
  ⟨rfl, rfl, rfl,
   (c5_tuple_pattern_expansion 9 0 tableT true
     [(AType.Int, ⟨("a"), 0⟩), (AType.Real, ⟨("b"), 0⟩)]
     (.Tuple [.Int, .Real])
     (.Tuple (.Tuple [.Int, .Real]) [.Literal .Int 10, .Literal .Real 20])
     [(.Int, .Sym .Int ⟨("a"), 0⟩), (.Real, .Sym .Real ⟨("b"), 0⟩)]
     (.Tuple [⟨("a"), 0⟩, ⟨("b"), 0⟩] [.Int, .Real]) 0
     (.Tuple [.Int, .Real] [.Lit .Int 10, .Lit .Real 20])
     rfl rfl rfl).1⟩

end WebML
